import Mathlib

/-!
Shallow embedding of the event relay broker in `src/server/index.js` and the
React consumer in `src/client/src/App.jsx`, together with proofs about its
broadcast fan-out, consumer lifecycle, heartbeat, startup and client-side
event-list behaviour.

The server keeps a set `sseClients` of open SSE responses; an upstream
subscription callback hands each received message to `broadcastEvent`,
which writes one `event: platformEvent` frame per client.  The embedding
models the set as a list of `Client` records (insertion order), each
holding the sequence of frames written to its transport, and models the
request handlers (`/events` attach, `close`, the 25-second ping interval,
the upstream message callback and the `transport:failure` callback) as a
step function on a `BrokerState`.
-/

namespace Relay

/-- Metadata of an upstream platform event (`event: { replayId, createdDate }`
in the relayed envelope). -/
structure EventMeta where
  replayId : Int
  createdDate : String
deriving DecidableEq

/-- A relayed upstream message: the envelope
`\x7b channel, payload, event: \x7b replayId, createdDate \x7d, schema \x7d`.
The payload is arbitrary structured data, carried here as its JSON text. -/
structure RelayEvent where
  channel : String
  payload : String
  event : EventMeta
  schema : String
deriving DecidableEq

/-- Quote a string as a JSON string literal (models `JSON.stringify` on a
plain string). -/
def jsonStr (s : String) : String := "\"" ++ s ++ "\""

/-- Models `JSON.stringify(evt)` (line 59 of `src/server/index.js`) on the
relay event envelope. -/
def serializeEvent (e : RelayEvent) : String :=
  "\x7b\"channel\":" ++ jsonStr e.channel ++
  ",\"payload\":" ++ e.payload ++
  ",\"event\":\x7b\"replayId\":" ++ toString e.event.replayId ++
  ",\"createdDate\":" ++ jsonStr e.event.createdDate ++
  "\x7d,\"schema\":" ++ jsonStr e.schema ++ "\x7d"

/-- One frame written to a consumer's transport: either the named event frame
produced by `broadcastEvent` or the `:ping` comment frame of the keep-alive
interval. -/
inductive Frame where
  | eventFrame (evt : RelayEvent)
  | pingFrame
deriving DecidableEq

/-- The exact text the server writes for a frame:
`res.write("event: platformEvent\n"); res.write("data: " + data + "\n\n")`
for an event (lines 61 and 62), and `res.write(":ping\n\n")` for the
keep-alive (line 46). -/
def renderFrame : Frame → String
  | .eventFrame e => "event: platformEvent\n" ++ ("data: " ++ serializeEvent e ++ "\n\n")
  | .pingFrame => ":ping\n\n"

/-- One attached SSE consumer: its identity (the `res` object, named by a
numeric id here) and the frames written to it so far, oldest first. -/
structure Client where
  cid : Nat
  written : List Frame
deriving DecidableEq

/-- Configuration of the single upstream subscription: channel name, the
replay id passed to `StreamingExtension.Replay`, and whether `subscribe`
has been issued. -/
structure UpstreamConfig where
  channel : String
  replayId : Int
  subscribed : Bool
deriving DecidableEq

/-- The replay id the server always subscribes with (line 84):
`-1` requests only new events. -/
def replayIdConst : Int := -1

/-- Interval of the keep-alive ping in milliseconds (line 47). -/
def pingIntervalMs : Nat := 25000

/-- The broker's mutable state: the `sseClients` set (as an ordered list),
the upstream subscription configuration, and the console log. -/
structure BrokerState where
  clients : List Client
  upstream : UpstreamConfig
  log : List String
deriving DecidableEq

/-- `sseClients.add(res)` (line 42): the `/events` handler registers a fresh
response object, with nothing written to it yet. -/
def attachClient (cid : Nat) (s : BrokerState) : BrokerState :=
  { s with clients := s.clients ++ [{ cid := cid, written := [] }] }

/-- `req.on("close")` (lines 49 to 52): the ping interval is cleared and
`sseClients.delete(res)` removes the response from the set.  Deleting an
absent element is a no-op. -/
def closeClient (cid : Nat) (s : BrokerState) : BrokerState :=
  { s with clients := s.clients.filter (fun c => c.cid != cid) }

/-- `broadcastEvent(evt)` (lines 58 to 64): serialize the event once, then
write the named frame to every response currently in `sseClients`. -/
def broadcastEvent (evt : RelayEvent) (s : BrokerState) : BrokerState :=
  { s with clients :=
      s.clients.map (fun c => { c with written := c.written ++ [Frame.eventFrame evt] }) }

/-- The ping interval of one consumer firing (lines 45 to 47): writes the
`:ping` comment frame to that consumer, unconditionally.  A cleared interval
(consumer no longer attached) writes nothing. -/
def pingClient (cid : Nat) (s : BrokerState) : BrokerState :=
  { s with clients :=
      s.clients.map (fun c =>
        if c.cid == cid then { c with written := c.written ++ [Frame.pingFrame] } else c) }

/-- The upstream subscription callback (lines 89 to 92): logs, then hands
the received message to `broadcastEvent` unchanged. -/
def onUpstreamMessage (data : RelayEvent) (s : BrokerState) : BrokerState :=
  broadcastEvent data { s with log := s.log ++ ["topic received data"] }

/-- The `transport:failure` callback (lines 101 to 103): logs the error and
does nothing else. -/
def onTransportFailure (err : String) (s : BrokerState) : BrokerState :=
  { s with log := s.log ++ ["CometD transport failure: " ++ err] }

/-- The externally triggered operations on a running broker. -/
inductive Op where
  | attach (cid : Nat)
  | close (cid : Nat)
  | broadcast (evt : RelayEvent)
  | ping (cid : Nat)
  | transportFailure (err : String)
deriving DecidableEq

/-- Dispatch one operation to the handler the source installs for it. -/
def stepOp (s : BrokerState) : Op → BrokerState
  | .attach cid => attachClient cid s
  | .close cid => closeClient cid s
  | .broadcast evt => onUpstreamMessage evt s
  | .ping cid => pingClient cid s
  | .transportFailure err => onTransportFailure err s

/-- Run a sequence of operations. -/
def runOps (s : BrokerState) (t : List Op) : BrokerState := t.foldl stepOp s

/-- The upstream configuration built by `start()` (lines 76 and 84 to 86):
channel `/event/<API_NAME>` with the default API name, replay id `-1`. -/
def initConfig : UpstreamConfig :=
  { channel := "/event/Session_Event__e", replayId := replayIdConst, subscribed := true }

/-- Broker state right after a successful startup: no consumer attached,
nothing logged since. -/
def initState : BrokerState :=
  { clients := [], upstream := initConfig, log := [] }

/-- Startup credentials read from the environment (lines 11 to 19):
`SF_USERNAME`, `SF_PASSWORD`, `SF_TOKEN`, each possibly absent. -/
structure Creds where
  username : Option String
  password : Option String
  token : Option String
deriving DecidableEq

/-- The configuration precondition checked at lines 21 to 24. -/
def credsPresent (c : Creds) : Bool :=
  c.username.isSome && c.password.isSome && c.token.isSome

/-- Outcome of the startup sequence: either `process.exit(1)` ran before
`app.listen` was ever reached, or the server is listening with a fresh
broker state. -/
inductive StartResult where
  | exitedBeforeListen (code : Nat)
  | listening (s : BrokerState)
deriving DecidableEq

/-- The startup flow of `src/server/index.js`: the credential check at
lines 21 to 24 exits the process, otherwise `start()` (lines 69 to 113)
runs; `conn.login` is an external call whose outcome is a parameter, and
any exception it throws lands in the catch at lines 109 to 112, which
exits the process; `app.listen` (line 105) is only reached after a
successful login. -/
def startup (c : Creds) (apiName : String) (loginOutcome : Except String Unit) :
    StartResult :=
  if credsPresent c then
    match loginOutcome with
    | .error _ => .exitedBeforeListen 1
    | .ok _ =>
        .listening
          { clients := []
            upstream :=
              { channel := "/event/" ++ apiName, replayId := replayIdConst
                subscribed := true }
            log := [] }
  else .exitedBeforeListen 1

/-- A running or exited process. -/
inductive SysState where
  | exited (code : Nat)
  | running (s : BrokerState)
deriving DecidableEq

/-- Steady-state system step: none of the installed handlers (attach,
close, broadcast, ping, transport failure) contains a `process.exit` or
an uncaught throw, so a running broker stays running. -/
def sysStep : SysState → Op → SysState
  | .exited code, _ => .exited code
  | .running s, op => .running (stepOp s op)

/-! ### The React client (`src/client/src/App.jsx`) -/

/-- The `event` object of a parsed message (`message?.data?.event`). -/
structure MsgMeta where
  replayId : Option Int
  createdDate : Option String
deriving DecidableEq

/-- The `data` object of a parsed message. -/
structure MsgData where
  payload : Option String
  event : Option MsgMeta
  schema : Option String
deriving DecidableEq

/-- A successfully parsed incoming message, with every field the handler
reads through optional chaining, plus the whole message (used as payload
fallback and as `raw`).  Nested structured values are carried as their
JSON text. -/
structure ParsedMsg where
  channel : Option String
  data : Option MsgData
  payload : Option String
  whole : String
deriving DecidableEq

/-- One entry of the client's `events` state (lines 24 to 33). -/
structure Entry where
  id : String
  payload : String
  metaCreatedDate : Option String
  metaType : Option String
  metaSchema : Option String
  raw : String
deriving DecidableEq

/-- `message?.data?.event ?? \x7b\x7d` (line 22). -/
def evtMetaOf (m : ParsedMsg) : MsgMeta :=
  ((m.data.bind (fun d => d.event)).getD { replayId := none, createdDate := none })

/-- `message?.data?.payload ?? message?.payload ?? message` (line 21). -/
def normPayload (m : ParsedMsg) : String :=
  ((m.data.bind (fun d => d.payload)).getD (m.payload.getD m.whole))

/-- The entry built at lines 24 to 33; `uuid` stands for the external
`crypto.randomUUID()` used when the message carries no replay id. -/
def mkEntry (uuid : String) (m : ParsedMsg) : Entry :=
  { id := match (evtMetaOf m).replayId with
          | some r => toString r
          | none => uuid
    payload := normPayload m
    metaCreatedDate := (evtMetaOf m).createdDate
    metaType := m.channel
    metaSchema := m.data.bind (fun d => d.schema)
    raw := m.whole }

/-- The `platformEvent` listener (lines 17 to 39): `JSON.parse` is the
external platform parser, passed as `parse`; on a parse exception the
catch block only logs, leaving `events` untouched; on success the new
entry is prepended and the list truncated with `.slice(0, 200)`. -/
def handlePlatformEvent (parse : String → Option ParsedMsg) (uuid : String)
    (data : String) (prev : List Entry) : List Entry :=
  match parse data with
  | none => prev
  | some m => ((mkEntry uuid m) :: prev).take 200

/-- Process a sequence of incoming frames, each paired with the uuid the
environment would supply for it, starting from the initial `events = []`
state (line 5). -/
def processFrames (parse : String → Option ParsedMsg)
    (inputs : List (String × String)) : List Entry :=
  inputs.foldl (fun prev p => handlePlatformEvent parse p.1 p.2 prev) []

/-- Models the `EventSource` framing contract on the client side: only
named `platformEvent` frames are dispatched to the registered listener
(line 17); a comment-only frame such as `:ping` is consumed by the SSE
framing layer and never reaches application code. -/
def dispatchToApp : Frame → Option RelayEvent
  | .eventFrame e => some e
  | .pingFrame => none

/-! ### Specification-side view of a single consumer (for fan-out claims)

A ghost automaton per consumer id: tracks whether the consumer is
currently attached and, if so, the list of events broadcast to it since
it attached. -/

/-- Ghost view of one consumer id: absent from the registry, or a member
that has been offered the recorded events, in order. -/
inductive GhostView where
  | absent
  | member (recv : List RelayEvent)
deriving DecidableEq

/-- How one operation changes the ghost view of consumer `cid`. -/
def ghostStep (cid : Nat) (g : GhostView) : Op → GhostView
  | .attach c => match g with
      | .absent => if c = cid then .member [] else .absent
      | .member r => .member r
  | .close c => match g with
      | .absent => .absent
      | .member r => if c = cid then .absent else .member r
  | .broadcast e => match g with
      | .absent => .absent
      | .member r => .member (r ++ [e])
  | .ping _ => g
  | .transportFailure _ => g

/-- Ghost view of consumer `cid` after a whole trace, starting absent. -/
def ghostRun (cid : Nat) (t : List Op) : GhostView :=
  t.foldl (ghostStep cid) .absent

/-- The events the specification says consumer `cid` receives over trace
`t`: exactly those broadcast while it was attached, in broadcast order. -/
def receivedSpec (cid : Nat) (t : List Op) : List RelayEvent :=
  match ghostRun cid t with
  | .member r => r
  | .absent => []

/-- The application-level events among the frames written to a transport:
`:ping` comment frames are framing only and carry no event. -/
def eventsOf (w : List Frame) : List RelayEvent :=
  w.filterMap (fun f => match f with
    | .eventFrame e => some e
    | .pingFrame => none)

/-- The consumer ids currently in the registry. -/
def ids (s : BrokerState) : List Nat := s.clients.map (fun c => c.cid)

/-- Look up the registry entry of consumer `cid`. -/
def findClient (s : BrokerState) (cid : Nat) : Option Client :=
  s.clients.find? (fun c => c.cid == cid)

/-- The broker state projected to the ghost view of consumer `cid`. -/
def projView (s : BrokerState) (cid : Nat) : GhostView :=
  match findClient s cid with
  | some c => .member (eventsOf c.written)
  | none => .absent

/-- The ids of the attach operations of a trace. -/
def attachIds (t : List Op) : List Nat :=
  t.filterMap (fun op => match op with
    | .attach c => some c
    | _ => none)

/-! ### Helper lemmas on `List.find?` -/

theorem find?_map_pres {α : Type} (p : α → Bool) (f : α → α)
    (hf : ∀ x, p (f x) = p x) (l : List α) :
    (l.map f).find? p = (l.find? p).map f := by
  induction l with
  | nil => rfl
  | cons a l ih =>
      by_cases h : p a = true
      · rw [List.map_cons, List.find?_cons_of_pos _ (by rw [hf]; exact h),
          List.find?_cons_of_pos _ h, Option.map_some']
      · rw [List.map_cons, List.find?_cons_of_neg _ (by rw [hf]; simpa using h),
          List.find?_cons_of_neg _ (by simpa using h), ih]

theorem find?_filter_imp {α : Type} (p q : α → Bool)
    (h : ∀ x, p x = true → q x = true) (l : List α) :
    (l.filter q).find? p = l.find? p := by
  induction l with
  | nil => rfl
  | cons a l ih =>
      by_cases hq : q a = true
      · by_cases hp : p a = true
        · rw [List.filter_cons_of_pos hq, List.find?_cons_of_pos _ hp,
            List.find?_cons_of_pos _ hp]
        · rw [List.filter_cons_of_pos hq, List.find?_cons_of_neg _ (by simpa using hp),
            List.find?_cons_of_neg _ (by simpa using hp), ih]
      · have hp : ¬ p a = true := fun hpa => hq (h a hpa)
        rw [List.filter_cons_of_neg (by simpa using hq),
          List.find?_cons_of_neg _ (by simpa using hp), ih]

theorem find?_append_some {α : Type} (p : α → Bool) (l l' : List α) (a : α)
    (h : l.find? p = some a) : (l ++ l').find? p = some a := by
  induction l with
  | nil => simp [List.find?] at h
  | cons b l ih =>
      by_cases hb : p b = true
      · rw [List.find?_cons_of_pos _ hb] at h
        rw [List.cons_append, List.find?_cons_of_pos _ hb]
        exact h
      · rw [List.find?_cons_of_neg _ (by simpa using hb)] at h
        rw [List.cons_append, List.find?_cons_of_neg _ (by simpa using hb)]
        exact ih h

theorem find?_append_none {α : Type} (p : α → Bool) (l l' : List α)
    (h : l.find? p = none) : (l ++ l').find? p = l'.find? p := by
  induction l with
  | nil => rfl
  | cons b l ih =>
      by_cases hb : p b = true
      · rw [List.find?_cons_of_pos _ hb] at h
        exact absurd h (by simp)
      · rw [List.find?_cons_of_neg _ (by simpa using hb)] at h
        rw [List.cons_append, List.find?_cons_of_neg _ (by simpa using hb)]
        exact ih h

/-- In a list of clients with pairwise distinct ids, `find?` by a member's
id returns exactly that member. -/
theorem find?_cid_of_mem_nodup (l : List Client)
    (h : (l.map (fun c => c.cid)).Nodup) (c : Client) (hc : c ∈ l) :
    l.find? (fun x => x.cid == c.cid) = some c := by
  induction l with
  | nil => cases hc
  | cons a l ih =>
      rw [List.map_cons, List.nodup_cons] at h
      by_cases ha : a.cid = c.cid
      · rw [List.find?_cons_of_pos _ (by simpa using ha)]
        rcases List.mem_cons.1 hc with rfl | hmem
        · rfl
        · exact absurd (ha ▸ List.mem_map_of_mem (fun c => c.cid) hmem) h.1
      · rw [List.find?_cons_of_neg _ (by simpa using ha)]
        rcases List.mem_cons.1 hc with rfl | hmem
        · exact absurd rfl ha
        · exact ih h.2 hmem

/-! ### The ghost view tracks the broker state -/

theorem eventsOf_append_event (w : List Frame) (e : RelayEvent) :
    eventsOf (w ++ [Frame.eventFrame e]) = eventsOf w ++ [e] := by
  simp [eventsOf]

theorem eventsOf_append_ping (w : List Frame) :
    eventsOf (w ++ [Frame.pingFrame]) = eventsOf w := by
  simp [eventsOf]

/-- One broker step is simulated by one ghost step, for every consumer id. -/
theorem projView_stepOp (cid : Nat) (s : BrokerState) (op : Op) :
    projView (stepOp s op) cid = ghostStep cid (projView s cid) op := by
  cases op with
  | attach a =>
      unfold projView findClient
      cases hf : s.clients.find? (fun x => x.cid == cid) with
      | some c =>
          rw [show (stepOp s (Op.attach a)).clients
              = s.clients ++ [{ cid := a, written := [] }] from rfl,
            find?_append_some _ _ _ _ hf]
          simp [ghostStep]
      | none =>
          rw [show (stepOp s (Op.attach a)).clients
              = s.clients ++ [{ cid := a, written := [] }] from rfl,
            find?_append_none _ _ _ hf]
          by_cases ha : a = cid
          · subst ha
            rw [List.find?_cons_of_pos _ (by simp)]
            simp [ghostStep, eventsOf]
          · rw [List.find?_cons_of_neg _ (by simpa using ha)]
            simp [ghostStep, ha]
  | close a =>
      unfold projView findClient
      rw [show (stepOp s (Op.close a)).clients
          = s.clients.filter (fun c => c.cid != a) from rfl]
      by_cases ha : a = cid
      · subst ha
        have : (s.clients.filter (fun c => c.cid != a)).find? (fun x => x.cid == a)
            = none := by
          rw [List.find?_eq_none]
          intro x hx
          have := (List.mem_filter.1 hx).2
          simpa using this
        rw [this]
        cases hf : s.clients.find? (fun x => x.cid == a) <;> simp [ghostStep]
      · rw [find?_filter_imp _ _ (fun x hx => by
          simp only [beq_iff_eq] at hx
          simp only [bne_iff_ne, ne_eq, decide_not, hx, decide_eq_true_eq]
          exact fun h => ha h.symm)]
        cases hf : s.clients.find? (fun x => x.cid == cid) <;>
          simp [ghostStep, ha]
  | broadcast e =>
      unfold projView findClient
      rw [show (stepOp s (Op.broadcast e)).clients
          = s.clients.map (fun c =>
              { c with written := c.written ++ [Frame.eventFrame e] }) from rfl,
        find?_map_pres (fun x : Client => x.cid == cid)
          (fun c : Client => { c with written := c.written ++ [Frame.eventFrame e] })
          (fun x => rfl)]
      cases hf : s.clients.find? (fun x => x.cid == cid) <;>
        simp [ghostStep, eventsOf_append_event]
  | ping a =>
      unfold projView findClient
      rw [show (stepOp s (Op.ping a)).clients
          = s.clients.map (fun c =>
              if c.cid == a then { c with written := c.written ++ [Frame.pingFrame] }
              else c) from rfl,
        find?_map_pres (fun x : Client => x.cid == cid)
          (fun c : Client =>
            if c.cid == a then { c with written := c.written ++ [Frame.pingFrame] }
            else c)
          (fun x => by by_cases h : x.cid = a <;> simp [h])]
      cases hf : s.clients.find? (fun x => x.cid == cid) with
      | none => simp [ghostStep]
      | some c =>
          by_cases h : c.cid = a <;> simp [ghostStep, h, eventsOf_append_ping]
  | transportFailure err =>
      unfold projView findClient
      rfl

/-- The ghost view tracks the broker state over a whole trace. -/
theorem projView_runOps (cid : Nat) (t : List Op) (s : BrokerState) :
    projView (runOps s t) cid = t.foldl (ghostStep cid) (projView s cid) := by
  induction t generalizing s with
  | nil => rfl
  | cons op t ih =>
      rw [show runOps s (op :: t) = runOps (stepOp s op) t from rfl,
        List.foldl_cons, ih, projView_stepOp]

/-! ### Distinctness of registry ids along a run -/

theorem ids_attachClient (a : Nat) (s : BrokerState) :
    ids (attachClient a s) = ids s ++ [a] := by
  simp [ids, attachClient]

theorem ids_closeClient (a : Nat) (s : BrokerState) :
    ids (closeClient a s) = (ids s).filter (fun x => x != a) := by
  simp [ids, closeClient, List.filter_map]
  rfl

theorem ids_broadcastEvent (e : RelayEvent) (s : BrokerState) :
    ids (broadcastEvent e s) = ids s := by
  simp [ids, broadcastEvent]

theorem ids_onUpstreamMessage (e : RelayEvent) (s : BrokerState) :
    ids (onUpstreamMessage e s) = ids s := by
  simp [ids, onUpstreamMessage, broadcastEvent]

theorem ids_pingClient (a : Nat) (s : BrokerState) :
    ids (pingClient a s) = ids s := by
  simp only [ids, pingClient, List.map_map]
  apply List.map_congr_left
  intro c _
  by_cases h : c.cid = a <;> simp [h]

theorem ids_onTransportFailure (err : String) (s : BrokerState) :
    ids (onTransportFailure err s) = ids s := rfl

/-- If every attach in the trace uses an id that is fresh for the whole
run, the registry ids stay pairwise distinct. -/
theorem nodup_ids_runOps (t : List Op) (s : BrokerState)
    (h1 : (ids s).Nodup)
    (h2 : ∀ a ∈ attachIds t, a ∉ ids s)
    (h3 : (attachIds t).Nodup) :
    (ids (runOps s t)).Nodup := by
  induction t generalizing s with
  | nil => exact h1
  | cons op t ih =>
      rw [show runOps s (op :: t) = runOps (stepOp s op) t from rfl]
      cases op with
      | attach a =>
          have hids : attachIds (Op.attach a :: t) = a :: attachIds t := rfl
          rw [hids] at h2 h3
          rw [List.nodup_cons] at h3
          refine ih (stepOp s (Op.attach a)) ?_ ?_ h3.2
          · rw [show stepOp s (Op.attach a) = attachClient a s from rfl,
              ids_attachClient]
            have ha : a ∉ ids s := h2 a (List.mem_cons_self a _)
            simpa [List.nodup_append] using ⟨h1, ha⟩
          · intro b hb
            rw [show stepOp s (Op.attach a) = attachClient a s from rfl,
              ids_attachClient]
            have hbs : b ∉ ids s := h2 b (List.mem_cons_of_mem a hb)
            have hba : b ≠ a := fun hba => h3.1 (hba ▸ hb)
            simp [hbs, hba]
      | close a =>
          refine ih (stepOp s (Op.close a)) ?_ ?_ h3
          · rw [show stepOp s (Op.close a) = closeClient a s from rfl,
              ids_closeClient]
            exact h1.filter _
          · intro b hb
            rw [show stepOp s (Op.close a) = closeClient a s from rfl,
              ids_closeClient]
            intro hmem
            exact h2 b hb (List.mem_of_mem_filter hmem)
      | broadcast e =>
          refine ih (stepOp s (Op.broadcast e)) ?_ ?_ h3 <;>
            rw [show stepOp s (Op.broadcast e) = onUpstreamMessage e s from rfl,
              ids_onUpstreamMessage]
          · exact h1
          · exact fun b hb => h2 b hb
      | ping a =>
          refine ih (stepOp s (Op.ping a)) ?_ ?_ h3 <;>
            rw [show stepOp s (Op.ping a) = pingClient a s from rfl, ids_pingClient]
          · exact h1
          · exact fun b hb => h2 b hb
      | transportFailure err =>
          refine ih (stepOp s (Op.transportFailure err)) ?_ ?_ h3 <;>
            rw [show stepOp s (Op.transportFailure err) = onTransportFailure err s
              from rfl, ids_onTransportFailure]
          · exact h1
          · exact fun b hb => h2 b hb

/-! ### Concrete sample data -/

/-- A sample relayed event. -/
def evtA : RelayEvent :=
  { channel := "/event/Session_Event__e", payload := "\x7b\"total\":42\x7d"
    event := { replayId := 1, createdDate := "2026-01-01" }, schema := "s1" }

/-- A second sample relayed event. -/
def evtB : RelayEvent :=
  { channel := "/event/Session_Event__e", payload := "\x7b\"total\":43\x7d"
    event := { replayId := 2, createdDate := "2026-01-02" }, schema := "s1" }

/-- A third sample relayed event. -/
def evtC : RelayEvent :=
  { channel := "/event/Session_Event__e", payload := "\x7b\"total\":44\x7d"
    event := { replayId := 3, createdDate := "2026-01-03" }, schema := "s1" }

/-- A sample trace: consumer 0 attaches, receives `evtA`, consumer 1
attaches (after that broadcast), both receive `evtB`, consumer 0 closes,
consumer 1 alone receives `evtC`. -/
def traceEx : List Op :=
  [Op.attach 0, Op.broadcast evtA, Op.attach 1, Op.broadcast evtB,
   Op.close 0, Op.broadcast evtC]

/-! ### Claims -/

/-- C1: for every sequence of consumer attach/detach operations interleaved
with broadcasts (each attach using a fresh consumer identity, as each HTTP
request produces a fresh response object), every consumer present in the
registry holds, as its received application-level events, exactly the
events broadcast while it was attached, one copy each, in upstream arrival
order; a consumer that attached after a broadcast completed holds no copy
of that event. -/
theorem broadcast_fanout_exact (t : List Op) (h : (attachIds t).Nodup) :
    ∀ c ∈ (runOps initState t).clients, eventsOf c.written = receivedSpec c.cid t := by
  intro c hc
  have hnd : ((runOps initState t).clients.map (fun c => c.cid)).Nodup := by
    have := nodup_ids_runOps t initState (by simp [ids, initState])
      (by simp [ids, initState]) h
    simpa [ids] using this
  have hfind : findClient (runOps initState t) c.cid = some c := by
    unfold findClient
    exact find?_cid_of_mem_nodup _ hnd c hc
  have hproj := projView_runOps c.cid t initState
  have habs : projView initState c.cid = GhostView.absent := rfl
  rw [habs] at hproj
  unfold projView at hproj
  rw [hfind] at hproj
  unfold receivedSpec ghostRun
  rw [← hproj]

/-- Witness for C1 on the sample trace: consumer 1 attached after the
`evtA` broadcast and before the `evtB` one, so it ends holding exactly
`evtB` then `evtC`. -/
theorem broadcast_fanout_exact_witness :
    (attachIds traceEx).Nodup ∧
    ({ cid := 1, written := [Frame.eventFrame evtB, Frame.eventFrame evtC] } : Client)
      ∈ (runOps initState traceEx).clients ∧
    eventsOf [Frame.eventFrame evtB, Frame.eventFrame evtC] = receivedSpec 1 traceEx :=
  ⟨by decide, by decide,
    broadcast_fanout_exact traceEx (by decide)
      { cid := 1, written := [Frame.eventFrame evtB, Frame.eventFrame evtC] }
      (by decide)⟩

/-- A consumer whose transport never drains, with 300 frames already
pending in its outbound buffer. -/
def stalledClient : Client :=
  { cid := 0, written := List.replicate 300 Frame.pingFrame }

/-- A broker state holding only the stalled consumer. -/
def stalledState : BrokerState :=
  { clients := [stalledClient], upstream := initConfig, log := [] }

set_option maxRecDepth 4000

/-- Counterexample to C2: the broadcast loop writes to every registered
response unconditionally — a consumer whose outbound buffer already holds
300 undrained frames is not transitioned away, not signalled to close, and
not removed from the registry by the broadcast; instead its buffer grows
to 301 frames, so per-consumer memory is not bounded by any queue
capacity. -/
theorem broadcast_no_eviction_cex :
    (broadcastEvent evtA stalledState).clients.map (fun c => c.cid) = [0] ∧
    (broadcastEvent evtA stalledState).clients.map (fun c => c.written.length)
      = [301] := by
  constructor
  · rfl
  · simp [broadcastEvent, stalledState, stalledClient]

/-- C2 amended: broadcast never evicts any consumer, regardless of how
much is pending on its outbound buffer: the registry ids are unchanged by
a broadcast and every registered consumer's buffer grows by exactly one
frame, unboundedly; a consumer leaves the registry only through its
transport's close signal. -/
theorem broadcast_never_evicts (evt : RelayEvent) (s : BrokerState) :
    ids (broadcastEvent evt s) = ids s ∧
    ∀ c ∈ s.clients, ∃ c', c' ∈ (broadcastEvent evt s).clients ∧
      c'.cid = c.cid ∧ c'.written.length = c.written.length + 1 := by
  refine ⟨ids_broadcastEvent evt s, ?_⟩
  intro c hc
  refine ⟨{ c with written := c.written ++ [Frame.eventFrame evt] }, ?_, rfl, by simp⟩
  simp only [broadcastEvent, List.mem_map]
  exact ⟨c, hc, rfl⟩

/-- Witness for the amended C2 at the stalled consumer. -/
theorem broadcast_never_evicts_witness :
    stalledClient ∈ stalledState.clients ∧
    (∃ c', c' ∈ (broadcastEvent evtA stalledState).clients ∧
      c'.cid = stalledClient.cid ∧
      c'.written.length = stalledClient.written.length + 1) :=
  ⟨List.mem_singleton.2 rfl,
    (broadcast_never_evicts evtA stalledState).2 stalledClient
      (List.mem_singleton.2 rfl)⟩

/-- An upstream event carrying replay id 5. -/
def evtFive : RelayEvent :=
  { channel := "/event/Session_Event__e", payload := "\x7b\"n\":5\x7d"
    event := { replayId := 5, createdDate := "2026-01-05" }, schema := "s1" }

/-- The broker right after delivering the event with replay id 5 to an
attached consumer. -/
def stateAfterFive : BrokerState :=
  runOps initState [Op.attach 0, Op.broadcast evtFive]

/-- Counterexample to C3: after delivering an event with replay id 5, a
transport failure leaves the subscription state untouched except for a
diagnostic log line — no resubscription happens, no backoff is scheduled,
and the replay id the subscription was configured with is still the
constant `-1` (new events only) rather than the last delivered cursor
`AT(5)`, so events published during an outage are never requested. -/
theorem transport_failure_no_cursor_retry_cex :
    (onTransportFailure "err" stateAfterFive).upstream = stateAfterFive.upstream ∧
    (onTransportFailure "err" stateAfterFive).clients = stateAfterFive.clients ∧
    stateAfterFive.upstream.replayId = -1 ∧
    (onTransportFailure "err" stateAfterFive).log
      = stateAfterFive.log ++ ["CometD transport failure: err"] :=
  ⟨rfl, rfl, rfl, rfl⟩

/-- C3 amended: on upstream transport disconnect or failure the server's
own code only appends a diagnostic to the log — registry and upstream
configuration are unchanged, no retry or backoff is performed here, and no
replay cursor is tracked: the subscription is configured once with the
constant replay id `-1`, so any reconnection (left to the underlying
streaming library) resumes with new events only and offers no gap-free
resumption guarantee. -/
theorem transport_failure_logs_only (err : String) (s : BrokerState) :
    (onTransportFailure err s).clients = s.clients ∧
    (onTransportFailure err s).upstream = s.upstream ∧
    (onTransportFailure err s).log
      = s.log ++ ["CometD transport failure: " ++ err] ∧
    initConfig.replayId = replayIdConst ∧ replayIdConst = -1 :=
  ⟨rfl, rfl, rfl, rfl, rfl⟩

/-- Credentials with every required variable set. -/
def fullCreds : Creds :=
  { username := some "user", password := some "pw", token := some "tok" }

/-- Credentials with `SF_USERNAME` missing. -/
def noCreds : Creds :=
  { username := none, password := some "pw", token := some "tok" }

/-- Counterexample to C4: with all credentials present, a transient login
failure (for example a network error thrown by `conn.login`) reaches the
catch block of `start()` and exits the process — a fatal exit whose cause
is not a missing-configuration precondition. -/
theorem startup_exit_not_only_config_cex :
    credsPresent fullCreds = true ∧
    startup fullCreds "Session_Event__e" (Except.error "ECONNRESET")
      = StartResult.exitedBeforeListen 1 := ⟨rfl, rfl⟩

/-- C4 amended: the process exits fatally only during startup — for
missing credentials, or for any exception in `start()` (including a
transient login failure) — and in every such case the exit happens before
`app.listen` is reached, so before any downstream connection is accepted;
with credentials present and a successful login the server reaches the
listening state, and after startup every installed handler is total: no
steady-state operation ever exits the process. -/
theorem exits_only_before_listen :
    (∀ c a lo, credsPresent c = false →
      startup c a lo = StartResult.exitedBeforeListen 1) ∧
    (∀ c a e, startup c a (Except.error e) = StartResult.exitedBeforeListen 1) ∧
    (∀ c a, credsPresent c = true →
      startup c a (Except.ok ()) = StartResult.listening
        { clients := []
          upstream := { channel := "/event/" ++ a, replayId := replayIdConst
                        subscribed := true }
          log := [] }) ∧
    (∀ s op, sysStep (SysState.running s) op = SysState.running (stepOp s op)) := by
  refine ⟨?_, ?_, ?_, fun s op => rfl⟩
  · intro c a lo h
    unfold startup
    rw [h]
    simp
  · intro c a e
    unfold startup
    cases h : credsPresent c <;> simp
  · intro c a h
    unfold startup
    rw [h]
    simp

/-- Witness for the amended C4: a missing username exits, a present
credential set with a failing login exits, and a successful login
listens. -/
theorem exits_only_before_listen_witness :
    credsPresent noCreds = false ∧
    startup noCreds "A" (Except.ok ()) = StartResult.exitedBeforeListen 1 ∧
    startup fullCreds "A" (Except.error "boom")
      = StartResult.exitedBeforeListen 1 ∧
    credsPresent fullCreds = true ∧
    startup fullCreds "A" (Except.ok ()) = StartResult.listening
      { clients := []
        upstream := { channel := "/event/" ++ "A", replayId := replayIdConst
                      subscribed := true }
        log := [] } :=
  ⟨rfl, exits_only_before_listen.1 noCreds "A" (Except.ok ()) rfl,
    exits_only_before_listen.2.1 fullCreds "A" "boom", rfl,
    exits_only_before_listen.2.2.1 fullCreds "A" rfl⟩

/-- C5: for every broadcast and any designated consumer `bad` to which the
event cannot be delivered (buffer full, consumer already gone, transport
write failing asynchronously), the loop still writes exactly one copy of
the event to every other consumer in the snapshot, the upstream
subscription state is untouched, and a consumer already gone from the
registry is written nothing and does not reappear. -/
theorem broadcast_failure_isolated (evt : RelayEvent) (s : BrokerState) (bad : Nat) :
    (∀ c ∈ s.clients, c.cid ≠ bad → ∃ c', c' ∈ (broadcastEvent evt s).clients ∧
        c'.cid = c.cid ∧ c'.written = c.written ++ [Frame.eventFrame evt]) ∧
    (broadcastEvent evt s).upstream = s.upstream ∧
    (bad ∉ ids s → bad ∉ ids (broadcastEvent evt s)) := by
  refine ⟨?_, rfl, ?_⟩
  · intro c hc _
    refine ⟨{ c with written := c.written ++ [Frame.eventFrame evt] }, ?_, rfl, rfl⟩
    simp only [broadcastEvent, List.mem_map]
    exact ⟨c, hc, rfl⟩
  · intro h
    rwa [ids_broadcastEvent]

/-- Witness for C5: consumer 0 is the undeliverable one; consumer 1 in the
same snapshot still receives the event. -/
theorem broadcast_failure_isolated_witness :
    (({ cid := 1, written := [] } : Client)
        ∈ ({ clients := [{ cid := 0, written := [] }, { cid := 1, written := [] }]
              , upstream := initConfig, log := [] } : BrokerState).clients) ∧
    (1 ≠ 0) ∧
    (∃ c', c' ∈ (broadcastEvent evtA
        { clients := [{ cid := 0, written := [] }, { cid := 1, written := [] }]
          , upstream := initConfig, log := [] }).clients ∧
      c'.cid = 1 ∧ c'.written = [] ++ [Frame.eventFrame evtA]) :=
  ⟨by simp, by decide,
    (broadcast_failure_isolated evtA
      { clients := [{ cid := 0, written := [] }, { cid := 1, written := [] }]
        , upstream := initConfig, log := [] } 0).1
      { cid := 1, written := [] } (by simp) (by decide)⟩

/-- Counterexample to C6: consumer 0 had real traffic since the last
heartbeat (`evtA` has just been written, the buffer is non-empty), yet
when the ping interval fires it still writes the `:ping` frame — the
keep-alive is not conditional on the queue having been empty. -/
theorem heartbeat_unconditional_cex :
    (runOps initState [Op.attach 0, Op.broadcast evtA]).clients.map
        (fun c => c.written) = [[Frame.eventFrame evtA]] ∧
    (runOps initState [Op.attach 0, Op.broadcast evtA, Op.ping 0]).clients.map
        (fun c => c.written)
      = [[Frame.eventFrame evtA, Frame.pingFrame]] := ⟨rfl, rfl⟩

/-- C6 amended: each consumer's keep-alive fires at the fixed interval of
25000 ms and writes the zero-payload comment frame `:ping`
unconditionally — whether or not the consumer had traffic since the last
heartbeat; the frame is distinguishable by transport framing (its text
starts with a colon, an SSE comment) and is never dispatched to the
application-level `platformEvent` listener, nor does it add an
application-level event to the consumer's received sequence. -/
theorem heartbeat_fixed_unconditional (cid : Nat) (s : BrokerState) :
    pingIntervalMs = 25000 ∧
    (∀ c ∈ s.clients, c.cid = cid → ∃ c', c' ∈ (pingClient cid s).clients ∧
        c'.cid = c.cid ∧ c'.written = c.written ++ [Frame.pingFrame]) ∧
    renderFrame Frame.pingFrame = ":ping\n\n" ∧
    (renderFrame Frame.pingFrame).data.head? = some ':' ∧
    dispatchToApp Frame.pingFrame = none ∧
    (∀ c : Client, eventsOf (c.written ++ [Frame.pingFrame]) = eventsOf c.written) := by
  refine ⟨rfl, ?_, rfl, by decide, rfl, fun c => eventsOf_append_ping c.written⟩
  intro c hc hcid
  refine ⟨{ c with written := c.written ++ [Frame.pingFrame] }, ?_, rfl, rfl⟩
  simp only [pingClient, List.mem_map]
  exact ⟨c, hc, by simp [hcid]⟩

/-- Witness for the amended C6 at a concrete attached consumer. -/
theorem heartbeat_fixed_unconditional_witness :
    (({ cid := 0, written := [Frame.eventFrame evtA] } : Client)
        ∈ ({ clients := [{ cid := 0, written := [Frame.eventFrame evtA] }]
              , upstream := initConfig, log := [] } : BrokerState).clients) ∧
    (∃ c', c' ∈ (pingClient 0
        { clients := [{ cid := 0, written := [Frame.eventFrame evtA] }]
          , upstream := initConfig, log := [] }).clients ∧
      c'.cid = 0 ∧ c'.written = [Frame.eventFrame evtA] ++ [Frame.pingFrame]) :=
  ⟨by simp,
    (heartbeat_fixed_unconditional 0
      { clients := [{ cid := 0, written := [Frame.eventFrame evtA] }]
        , upstream := initConfig, log := [] }).2.1
      { cid := 0, written := [Frame.eventFrame evtA] } (by simp) rfl⟩

/-- C7: the subscription callback hands each upstream message to
`broadcastEvent` unchanged; the broadcast writes to every attached
consumer exactly one named, delimited SSE frame whose text is the
`event: platformEvent` line followed by a `data:` line carrying the JSON
serialization of the envelope; a provider-redelivered duplicate is passed
through and framed again, with no deduplication and no field rewriting. -/
theorem relay_frame_passthrough (evt : RelayEvent) (s : BrokerState) :
    (∀ c ∈ s.clients, ∃ c', c' ∈ (onUpstreamMessage evt s).clients ∧
        c'.cid = c.cid ∧ c'.written = c.written ++ [Frame.eventFrame evt]) ∧
    renderFrame (Frame.eventFrame evt)
      = "event: platformEvent\n" ++ ("data: " ++ serializeEvent evt ++ "\n\n") ∧
    serializeEvent evtA
      = "\x7b\"channel\":\"/event/Session_Event__e\",\"payload\":\x7b\"total\":42\x7d,\"event\":\x7b\"replayId\":1,\"createdDate\":\"2026-01-01\"\x7d,\"schema\":\"s1\"\x7d" ∧
    (∀ c ∈ s.clients, ∃ c',
        c' ∈ (onUpstreamMessage evt (onUpstreamMessage evt s)).clients ∧
        c'.cid = c.cid ∧
        c'.written = c.written ++ [Frame.eventFrame evt, Frame.eventFrame evt]) := by
  refine ⟨?_, rfl, by decide, ?_⟩
  · intro c hc
    refine ⟨{ c with written := c.written ++ [Frame.eventFrame evt] }, ?_, rfl, rfl⟩
    simp only [onUpstreamMessage, broadcastEvent, List.mem_map]
    exact ⟨c, hc, rfl⟩
  · intro c hc
    refine ⟨{ c with
        written := c.written ++ [Frame.eventFrame evt, Frame.eventFrame evt] },
      ?_, rfl, rfl⟩
    simp only [onUpstreamMessage, broadcastEvent, List.mem_map]
    exact ⟨{ c with written := c.written ++ [Frame.eventFrame evt] },
      ⟨c, hc, rfl⟩, by simp⟩

/-- Witness for C7 at a concrete attached consumer. -/
theorem relay_frame_passthrough_witness :
    (({ cid := 0, written := [] } : Client)
        ∈ ({ clients := [{ cid := 0, written := [] }]
              , upstream := initConfig, log := [] } : BrokerState).clients) ∧
    (∃ c', c' ∈ (onUpstreamMessage evtA
        { clients := [{ cid := 0, written := [] }]
          , upstream := initConfig, log := [] }).clients ∧
      c'.cid = 0 ∧ c'.written = [] ++ [Frame.eventFrame evtA]) :=
  ⟨by simp,
    (relay_frame_passthrough evtA
      { clients := [{ cid := 0, written := [] }]
        , upstream := initConfig, log := [] }).1
      { cid := 0, written := [] } (by simp)⟩

/-- A client is found in the registry exactly when its id is registered. -/
theorem findClient_eq_none_iff (s : BrokerState) (cid : Nat) :
    findClient s cid = none ↔ cid ∉ ids s := by
  unfold findClient ids
  rw [List.find?_eq_none]
  constructor
  · intro h hm
    rcases List.mem_map.1 hm with ⟨c, hc, hcid⟩
    exact h c hc (by simp [hcid])
  · intro h c hc hb
    exact h (List.mem_map.2 ⟨c, hc, by simpa using hb⟩)

/-- C8: detach is idempotent and synchronous with the close signal —
closing an already-absent consumer id changes nothing (a no-op, not an
error), closing twice equals closing once, a closed consumer id is never
present in the registry afterwards, and a subsequent broadcast finds no
entry for it, so nothing is written to it. -/
theorem detach_idempotent_sync (s : BrokerState) (cid : Nat) :
    closeClient cid (closeClient cid s) = closeClient cid s ∧
    (cid ∉ ids s → closeClient cid s = s) ∧
    cid ∉ ids (closeClient cid s) ∧
    (∀ evt, findClient (broadcastEvent evt (closeClient cid s)) cid = none) := by
  have hnotin : cid ∉ ids (closeClient cid s) := by
    rw [ids_closeClient]
    intro hm
    have := List.of_mem_filter hm
    simp at this
  refine ⟨?_, ?_, hnotin, ?_⟩
  · unfold closeClient
    simp [List.filter_filter]
  · intro h
    unfold closeClient
    have : s.clients.filter (fun c => c.cid != cid) = s.clients := by
      rw [List.filter_eq_self]
      intro c hc
      simp only [bne_iff_ne, ne_eq, decide_not, decide_eq_true_eq]
      intro hcid
      exact h (List.mem_map.2 ⟨c, hc, hcid⟩)
    rw [this]
  · intro evt
    rw [findClient_eq_none_iff, ids_broadcastEvent]
    exact hnotin

/-- Witness for C8 at a concrete registry. -/
theorem detach_idempotent_sync_witness :
    (5 ∉ ids { clients := [{ cid := 0, written := [] }]
               , upstream := initConfig, log := [] }) ∧
    closeClient 5 { clients := [({ cid := 0, written := [] } : Client)]
                    , upstream := initConfig, log := [] }
      = { clients := [{ cid := 0, written := [] }]
          , upstream := initConfig, log := [] } :=
  ⟨by decide,
    (detach_idempotent_sync
      { clients := [{ cid := 0, written := [] }]
        , upstream := initConfig, log := [] } 5).2.1 (by decide)⟩

/-- Length bound of the client-side fold: from any state of at most 200
entries, processing any frames leaves at most 200 entries. -/
theorem handle_fold_length_le (parse : String → Option ParsedMsg)
    (inputs : List (String × String)) (prev : List Entry)
    (h : prev.length ≤ 200) :
    (inputs.foldl (fun prev p => handlePlatformEvent parse p.1 p.2 prev)
      prev).length ≤ 200 := by
  induction inputs generalizing prev with
  | nil => simpa using h
  | cons p t ih =>
      rw [List.foldl_cons]
      apply ih
      unfold handlePlatformEvent
      cases parse p.2 with
      | none => simpa using h
      | some m => simp [List.length_take]

/-- A sample parsed message carrying replay id 1. -/
def msgEx : ParsedMsg :=
  { channel := some "/event/Session_Event__e"
    data := some
      { payload := some "\x7b\"total\":42\x7d"
        event := some { replayId := some 1, createdDate := some "2026-01-01" }
        schema := some "s1" }
    payload := none
    whole := "raw" }

/-- C9: the client's displayed event list is always bounded — after
processing any sequence of incoming frames from the initial empty state,
the `events` state holds at most 200 entries — and each successfully
parsed frame's entry is prepended, so the list is ordered newest first
(the freshest entry is the head). -/
theorem client_events_bounded (parse : String → Option ParsedMsg)
    (inputs : List (String × String)) :
    (processFrames parse inputs).length ≤ 200 ∧
    (∀ uuid d prev m, parse d = some m →
      handlePlatformEvent parse uuid d prev = ((mkEntry uuid m) :: prev).take 200 ∧
      (handlePlatformEvent parse uuid d prev).head? = some (mkEntry uuid m)) := by
  refine ⟨handle_fold_length_le parse inputs [] (by simp), ?_⟩
  intro uuid d prev m h
  unfold handlePlatformEvent
  rw [h]
  exact ⟨rfl, rfl⟩

/-- Witness for C9: one frame processed from the empty state. -/
theorem client_events_bounded_witness :
    (processFrames (fun _ => some msgEx) [("u", "d")]).length ≤ 200 ∧
    ((fun _ : String => some msgEx) "d" = some msgEx) ∧
    (handlePlatformEvent (fun _ => some msgEx) "u" "d" []
        = ((mkEntry "u" msgEx) :: []).take 200 ∧
      (handlePlatformEvent (fun _ => some msgEx) "u" "d" []).head?
        = some (mkEntry "u" msgEx)) :=
  ⟨(client_events_bounded (fun _ => some msgEx) [("u", "d")]).1, rfl,
    (client_events_bounded (fun _ => some msgEx) [("u", "d")]).2 "u" "d" [] msgEx rfl⟩

/-- C10: the client's frame handler is atomic on malformed input — when
`JSON.parse` fails on a frame's data, the catch block only logs and the
`events` state is returned exactly unchanged: no partial entry is added
and no existing entry is removed. -/
theorem malformed_frame_noop (parse : String → Option ParsedMsg)
    (uuid data : String) (prev : List Entry) (h : parse data = none) :
    handlePlatformEvent parse uuid data prev = prev := by
  unfold handlePlatformEvent
  rw [h]

/-- Witness for C10: a non-JSON frame arriving over a non-empty events
state leaves it untouched. -/
theorem malformed_frame_noop_witness :
    ((fun _ : String => (none : Option ParsedMsg)) "not json" = none) ∧
    handlePlatformEvent (fun _ => none) "u" "not json" [mkEntry "u" msgEx]
      = [mkEntry "u" msgEx] :=
  ⟨rfl, malformed_frame_noop (fun _ => none) "u" "not json" [mkEntry "u" msgEx] rfl⟩

end Relay
